import Mathlib

/-!
Verification of the impulse-check terminal application (src/main.py).

The Python program is shallowly embedded: the mutable `ImpulseControlApp`
object becomes an explicit `AppState` record, every input handler becomes a
pure function `AppState → Except PyExc AppState` (a raised, uncaught Python
exception is modelled as `Except.error`, which at the top level of the
program means process termination, since `cli()` catches only
`KeyboardInterrupt`), and the persisted JSON file becomes a small JSON AST.
Rendering code (the `draw_*` methods) writes only to the screen and never to
the application state, so it is not modelled.  Wall-clock values
(`datetime.now()`), the text typed into the curses textbox, the random
choice of motivational message and the success of a disk write are inputs of
the program run and are supplied through an explicit `Env` record.
-/

namespace ImpulseCheck

/-- Python exceptions that the handlers in `main.py` can raise.  An
`Except.error` escaping a handler is uncaught in `run` and terminates the
process (only `KeyboardInterrupt` is caught, in `cli`). -/
inductive PyExc where
  | keyError
  | indexError
  | attributeError
  | osError
  | keyboardInterrupt
deriving DecidableEq

/-- JSON values, modelling the content of the persisted file
`~/.impulse_control.json`. -/
inductive Json where
  | jnull
  | jbool (b : Bool)
  | jint (n : Int)
  | jstr (s : String)
  | jarr (xs : List Json)
  | jobj (fields : List (String × Json))

/-- State of the persisted file as seen by `load_data`: absent, present but
rejected by `json.load` with a `JSONDecodeError`, or present with a parsed
JSON value. -/
inductive FileState where
  | missing
  | unparsable
  | content (j : Json)

/-- One goal record, a Python dict whose expected fields may be absent
(`none`): `load_data` performs no validation, so a hand-edited file can
produce records missing any of them.  Fields are modelled at their expected
types. -/
structure GoalRec where
  counter : Option Int
  history : Option (List Int)
  created_at : Option String
  last_updated : Option String
deriving DecidableEq

/-- The four states of the UI state machine in `main.py`
(`self.current_state`). -/
inductive UIState where
  | menu
  | view_goal
  | create_goal
  | delete_confirm
deriving DecidableEq

/-- The mutable fields of `ImpulseControlApp` that the input handlers read
or write.  `goals` is the registry, an insertion-ordered Python dict
modelled as an association list. -/
structure AppState where
  goals : List (String × GoalRec)
  current_goal : Option String
  current_state : UIState
  selected_index : Int
  goal_to_delete : Option String
  status_message : Option String
  is_error : Bool
deriving DecidableEq

/-- Inputs of one handler invocation: the key returned by `getch` (−1 is
the timeout sentinel), the text submitted to the create-goal textbox, the
`datetime.now()` timestamp string, the randomly chosen motivational
message, and whether the disk write in `save_data` succeeds. -/
structure Env where
  key : Int
  text : String
  now : String
  choice : String
  diskOk : Bool
deriving DecidableEq

/-- Python dict read `goals[g]` as an option (first matching key). -/
def findRec (g : String) : List (String × GoalRec) → Option GoalRec
  | [] => none
  | p :: rest => if p.1 = g then some p.2 else findRec g rest

/-- Python dict write `goals[g] = r`: replaces the value in place if the
key is present (keeping its position), otherwise appends the new key at the
end, as CPython insertion-ordered dicts do. -/
def setRec (g : String) (r : GoalRec) : List (String × GoalRec) → List (String × GoalRec)
  | [] => [(g, r)]
  | p :: rest => if p.1 = g then (g, r) :: rest else p :: setRec g r rest

/-- Python `del goals[g]`: removes the entry with the given key. -/
def removeRec (g : String) : List (String × GoalRec) → List (String × GoalRec)
  | [] => []
  | p :: rest => if p.1 = g then rest else p :: removeRec g rest

/-- Python list indexing `l[i]`, with negative indices counting from the
end and `IndexError` out of range. -/
def pyIndex {α : Type} (l : List α) (i : Int) : Except PyExc α :=
  if h : 0 ≤ i ∧ i.toNat < l.length then .ok (l.get ⟨i.toNat, h.2⟩)
  else if h2 : i < 0 ∧ 0 ≤ (l.length : Int) + i ∧ ((l.length : Int) + i).toNat < l.length then
    .ok (l.get ⟨((l.length : Int) + i).toNat, h2.2.2⟩)
  else .error .indexError

/-- Model of `set_status(message, error)`: records the message and its severity (the
recorded wall-clock time and footer redraw have no further effect on the
modelled state). -/
def setStatus (msg : String) (err : Bool) (st : AppState) : AppState :=
  { st with status_message := some msg, is_error := err }

/-- Model of `save_data`: serializes the whole registry and overwrites the file.
The write is not guarded by any try/except in the source, so a failing
write (`env.diskOk = false`) raises `OSError` at the call site.  The bytes
written are described separately by `save_file`. -/
def saveData (env : Env) : Except PyExc Unit :=
  if env.diskOk then .ok () else .error .osError

/-- Value of `curses.KEY_UP`. -/
def KEY_UP : Int := 259

/-- Value of `curses.KEY_DOWN`. -/
def KEY_DOWN : Int := 258

/-- Model of `handle_menu_input` (src/main.py lines 203–233).  The try/except around
the body catches only `KeyboardInterrupt` (raised by the quit key), turning
it into `quit()` = save + re-raise; every other exception escapes. -/
def handleMenuInput (env : Env) (st : AppState) : Except PyExc AppState :=
  let key := env.key
  if key = -1 then .ok st
  else if key = KEY_UP then
    let idx := max 0 (st.selected_index - 1)
    match pyIndex (st.goals.map Prod.fst) idx with
    | .ok name => .ok (setStatus ("Selected: " ++ name) false { st with selected_index := idx })
    | .error e => .error e
  else if key = KEY_DOWN then
    let idx := min ((st.goals.length : Int) - 1) (st.selected_index + 1)
    if st.goals = [] then .ok { st with selected_index := idx }
    else
      match pyIndex (st.goals.map Prod.fst) idx with
      | .ok name => .ok (setStatus ("Selected: " ++ name) false { st with selected_index := idx })
      | .error e => .error e
  else if (key = 10 ∨ key = 13) ∧ st.goals ≠ [] then
    match pyIndex (st.goals.map Prod.fst) st.selected_index with
    | .ok name =>
      .ok (setStatus ("Viewing goal: " ++ name) false
        { st with current_goal := some name, current_state := .view_goal })
    | .error e => .error e
  else if key = 99 ∨ key = 67 then
    .ok (setStatus "Creating new goal..." false { st with current_state := .create_goal })
  else if (key = 100 ∨ key = 68) ∧ st.goals ≠ [] then
    match pyIndex (st.goals.map Prod.fst) st.selected_index with
    | .ok name => .ok { st with goal_to_delete := some name, current_state := .delete_confirm }
    | .error e => .error e
  else if key = 113 ∨ key = 81 then
    match saveData env with
    | .ok _ => .error .keyboardInterrupt
    | .error e => .error e
  else if key = 63 then
    .ok (setStatus "👋 Remember: each step matters!" false st)
  else .ok st

/-- Model of `handle_goal_input` (src/main.py lines 309–350).  Note that for every
key other than the −1 sentinel the source evaluates
`self.goals[self.current_goal]` before dispatching on the key, and that the
undo guard `data['history']` itself raises `KeyError` when the field is
absent. -/
def handleGoalInput (env : Env) (st : AppState) : Except PyExc AppState :=
  let key := env.key
  if key = -1 then .ok st
  else
    match st.current_goal with
    | none => .error .keyError
    | some g =>
      match findRec g st.goals with
      | none => .error .keyError
      | some data =>
        if key = 105 ∨ key = 73 then
          match data.history with
          | none => .error .keyError
          | some h =>
            match data.counter with
            | none => .error .keyError
            | some c =>
              let d := { data with
                history := some (h ++ [c])
                counter := some (c + 1)
                last_updated := some env.now }
              let st1 := { st with goals := setRec g d st.goals }
              match saveData env with
              | .ok _ => .ok (setStatus ("Counter increased to " ++ toString (c + 1)) false st1)
              | .error e => .error e
        else if key = 117 ∨ key = 85 then
          match data.history with
          | none => .error .keyError
          | some h =>
            match h.getLast? with
            | none => .ok st
            | some x =>
              let d := { data with
                counter := some x
                history := some h.dropLast
                last_updated := some env.now }
              let st1 := { st with goals := setRec g d st.goals }
              match saveData env with
              | .ok _ => .ok (setStatus ("Counter reset to " ++ toString x) false st1)
              | .error e => .error e
        else if key = 109 ∨ key = 77 then
          .ok (setStatus "Returned to menu" false
            { st with current_goal := none, current_state := .menu })
        else if key = 113 ∨ key = 81 then
          match saveData env with
          | .ok _ => .error .keyboardInterrupt
          | .error e => .error e
        else if key = 63 then
          .ok (setStatus ("👋 " ++ env.choice) false st)
        else .ok st

/-- The characters removed by Python `str.strip()` (ASCII whitespace). -/
def pySpace (ch : Char) : Bool :=
  ch = ' ' ∨ ch = '\t' ∨ ch = '\n' ∨ ch = '\x0d' ∨ ch = '\x0b' ∨ ch = '\x0c'

/-- Python `text.strip()`. -/
def pyStrip (s : String) : String :=
  String.mk (((s.data.dropWhile pySpace).reverse.dropWhile pySpace).reverse)

/-- Python `c in s` for a single character. -/
def pyInStr (c : Char) (s : String) : Bool :=
  s.data.any (fun ch => ch = c)

/-- Model of `handle_create_goal` (src/main.py lines 417–450), after the textbox has
returned `env.text`.  A stripped name containing ESC (`\x1b`) or empty is a
cancellation; a name already present shows an error and stays in the
current state; otherwise the goal is inserted at the end of the dict and
saved. -/
def handleCreateGoal (env : Env) (st : AppState) : Except PyExc AppState :=
  let goal_name := pyStrip env.text
  if pyInStr '\x1b' goal_name ∨ goal_name = "" then
    .ok (setStatus "Goal creation cancelled" false { st with current_state := .menu })
  else if (findRec goal_name st.goals).isSome then
    .ok (setStatus ("Goal '" ++ goal_name ++ "' already exists!") true st)
  else
    let r : GoalRec :=
      { counter := some 0
        history := some []
        created_at := some env.now
        last_updated := some env.now }
    let st1 := { st with goals := st.goals ++ [(goal_name, r)] }
    match saveData env with
    | .ok _ =>
      .ok (setStatus ("Goal '" ++ goal_name ++ "' created successfully!") false
        { st1 with current_goal := some goal_name, current_state := .view_goal })
    | .error e => .error e

/-- Model of `handle_delete_confirm` (src/main.py lines 495–506).  Only `y`/`Y`
deletes; `n`/`N` only sets a status; the final `self.current_state = 'menu'`
is unconditional, so every input (including the −1 timeout sentinel)
returns to the menu. -/
def handleDeleteConfirm (env : Env) (st : AppState) : Except PyExc AppState :=
  let key := env.key
  if key = 121 ∨ key = 89 then
    match st.goal_to_delete with
    | none => .error .keyError
    | some g =>
      if (findRec g st.goals).isSome then
        let goals2 := removeRec g st.goals
        match saveData env with
        | .ok _ =>
          .ok (setStatus ("Goal '" ++ g ++ "' deleted successfully") false
            { st with
              goals := goals2
              selected_index := max 0 (min st.selected_index ((goals2.length : Int) - 1))
              current_state := .menu })
        | .error e => .error e
      else .error .keyError
  else if key = 110 ∨ key = 78 then
    .ok (setStatus "Deletion cancelled" false { st with current_state := .menu })
  else .ok { st with current_state := .menu }

/-- The input-dispatch section of `run` (src/main.py lines 129–138): one
loop iteration hands the pending input to the handler of the current
state. -/
def step (env : Env) (st : AppState) : Except PyExc AppState :=
  match st.current_state with
  | .menu => handleMenuInput env st
  | .view_goal => handleGoalInput env st
  | .create_goal => handleCreateGoal env st
  | .delete_confirm => handleDeleteConfirm env st

/-- Iterate `step` over a list of per-iteration inputs, stopping at the
first uncaught exception. -/
def runSteps (envs : List Env) (st : AppState) : Except PyExc AppState :=
  match envs with
  | [] => .ok st
  | e :: rest =>
    match step e st with
    | .ok st2 => runSteps rest st2
    | .error ex => .error ex

/-- Iterate `handle_goal_input` over a list of keys (same environment for
every keypress). -/
def runGoalKeys (env : Env) (ks : List Int) (st : AppState) : Except PyExc AppState :=
  match ks with
  | [] => .ok st
  | k :: rest =>
    match handleGoalInput { env with key := k } st with
    | .ok st2 => runGoalKeys env rest st2
    | .error ex => .error ex

/-- Lookup in a JSON object field list (Python `dict` access of parsed
JSON). -/
def jsonLookup (k : String) : List (String × Json) → Option Json
  | [] => none
  | p :: rest => if p.1 = k then some p.2 else jsonLookup k rest

/-- Model of `load_data` (src/main.py lines 89–98): missing file leaves the initial
empty registry; a `JSONDecodeError` is caught and leaves it empty; a parsed
JSON object yields `data.get('goals', {})`; any other parsed JSON value has
no `.get` method, so the source raises an uncaught `AttributeError`. -/
def load_data : FileState → Except PyExc Json
  | .missing => .ok (Json.jobj [])
  | .unparsable => .ok (Json.jobj [])
  | .content (Json.jobj fields) => .ok ((jsonLookup "goals" fields).getD (Json.jobj []))
  | .content _ => .error .attributeError

/-- Serialization of one goal record by `json.dump`: the fields present in
the dict, in their insertion order (creation order for app-created
records). -/
def encodeRec (r : GoalRec) : Json :=
  Json.jobj
    ((match r.counter with | some c => [("counter", Json.jint c)] | none => []) ++
     (match r.history with | some h => [("history", Json.jarr (h.map Json.jint))] | none => []) ++
     (match r.created_at with | some s => [("created_at", Json.jstr s)] | none => []) ++
     (match r.last_updated with | some s => [("last_updated", Json.jstr s)] | none => []))

/-- Serialization of the registry by `json.dump`. -/
def encodeGoals (gs : List (String × GoalRec)) : Json :=
  Json.jobj (gs.map (fun p => (p.1, encodeRec p.2)))

/-- The file written by `save_data`: `{'goals': self.goals}` serialized. -/
def save_file (gs : List (String × GoalRec)) : FileState :=
  FileState.content (Json.jobj [("goals", encodeGoals gs)])

/-- Read a JSON value back as an integer. -/
def asInt : Json → Option Int
  | Json.jint n => some n
  | _ => none

/-- Read a JSON value back as a string. -/
def asStr : Json → Option String
  | Json.jstr s => some s
  | _ => none

/-- Map a partial reader over a list, failing if any element fails. -/
def mapOpt {α β : Type} (f : α → Option β) : List α → Option (List β)
  | [] => some []
  | a :: rest =>
    match f a, mapOpt f rest with
    | some b, some bs => some (b :: bs)
    | _, _ => none

/-- Read a JSON value back as a list of integers. -/
def asIntList : Json → Option (List Int)
  | Json.jarr xs => mapOpt asInt xs
  | _ => none

/-- Read one goal record back from its JSON serialization: each expected
field is taken when present with its expected type (the typed view of the
untyped Python dict that `load_data` stores). -/
def decodeRec : Json → Option GoalRec
  | Json.jobj fs =>
    some { counter := (jsonLookup "counter" fs).bind asInt
           history := (jsonLookup "history" fs).bind asIntList
           created_at := (jsonLookup "created_at" fs).bind asStr
           last_updated := (jsonLookup "last_updated" fs).bind asStr }
  | _ => none

/-- Read the registry back from the `goals` JSON value returned by
`load_data`. -/
def decodeGoals : Json → Option (List (String × GoalRec))
  | Json.jobj fs => mapOpt (fun p => (decodeRec p.2).map (fun r => (p.1, r))) fs
  | _ => none

/-- A record with all four fields present, as every record created by
`handle_create_goal` is. -/
def fullRec (r : GoalRec) : Prop :=
  r.counter.isSome ∧ r.history.isSome ∧ r.created_at.isSome ∧ r.last_updated.isSome

instance (r : GoalRec) : Decidable (fullRec r) := by
  unfold fullRec
  infer_instance

/-- The state built by `__init__` + `load_data` for a file that decodes to
the registry `gs` (in particular `gs = []` for a missing file): the
selection index starts at 0 and the UI starts in `create_goal` when the
registry is empty, in `menu` otherwise. -/
def initialState (gs : List (String × GoalRec)) : AppState :=
  { goals := gs
    current_goal := none
    current_state := if gs.isEmpty then UIState.create_goal else UIState.menu
    selected_index := 0
    goal_to_delete := none
    status_message := none
    is_error := false }

/-- The counter of goal `g` in a state, when present. -/
def counterOf (g : String) (st : AppState) : Option Int :=
  (findRec g st.goals).bind (fun r => r.counter)

/-- The history of goal `g` in a state, when present. -/
def historyOf (g : String) (st : AppState) : Option (List Int) :=
  (findRec g st.goals).bind (fun r => r.history)

/-- The state views goal `g` with counter `c` and history `h`: the current
goal is `g` and its record carries those two fields. -/
def viewing (g : String) (c : Int) (h : List Int) (st : AppState) : Prop :=
  st.current_goal = some g ∧
  ∃ r, findRec g st.goals = some r ∧ r.counter = some c ∧ r.history = some h

/-- The successive counter values pushed by `n` increments starting from
counter `c`: `[c, c+1, …, c+n−1]`. -/
def pushSeq (c : Int) : Nat → List Int
  | 0 => []
  | n + 1 => c :: pushSeq (c + 1) n

/-- The key sequence of `n` increment presses followed by `k` undo
presses. -/
def incUndoKeys (n k : Nat) : List Int :=
  List.replicate n 105 ++ List.replicate k 117

/-- Invariant on the selection index that the handlers actually maintain:
`−1 ≤ selected_index < max 1 count`. -/
def invIdx (st : AppState) : Prop :=
  -1 ≤ st.selected_index ∧ st.selected_index < max 1 (st.goals.length : Int)

instance (st : AppState) : Decidable (invIdx st) := by
  unfold invIdx
  infer_instance

/-- States well-formed for input handling: every record has all its fields,
and the goal pointed at by `view_goal` / `delete_confirm` exists.  All
states reachable from `initialState` of a fully-recorded registry satisfy
this. -/
def wfState (st : AppState) : Prop :=
  (∀ p ∈ st.goals, fullRec p.2) ∧
  (st.current_state = UIState.view_goal →
    ∃ g, st.current_goal = some g ∧ (findRec g st.goals).isSome) ∧
  (st.current_state = UIState.delete_confirm →
    ∃ g, st.goal_to_delete = some g ∧ (findRec g st.goals).isSome)

/-! Concrete fixtures used by witnesses and counterexamples. -/

/-- An input with a given key, writes succeeding. -/
def envK (k : Int) : Env :=
  { key := k, text := "", now := "t", choice := "c", diskOk := true }

/-- An input with a given submitted text, writes succeeding. -/
def envText (s : String) : Env :=
  { key := 0, text := s, now := "t", choice := "c", diskOk := true }

/-- The increment key pressed while the disk write fails. -/
def envBadDisk : Env :=
  { key := 105, text := "", now := "t", choice := "c", diskOk := false }

/-- A freshly created goal record. -/
def rec0 : GoalRec :=
  { counter := some 0, history := some [], created_at := some "t", last_updated := some "t" }

/-- A goal record from a hand-edited file with no `history` field. -/
def recNoHist : GoalRec :=
  { counter := some 5, history := none, created_at := none, last_updated := none }

/-- Viewing the single goal `"g"` (freshly created). -/
def stView : AppState :=
  { goals := [("g", rec0)]
    current_goal := some "g"
    current_state := UIState.view_goal
    selected_index := 0
    goal_to_delete := none
    status_message := none
    is_error := false }

/-- Viewing the single goal `"g"` whose record has no `history` field. -/
def stNoHist : AppState :=
  { goals := [("g", recNoHist)]
    current_goal := some "g"
    current_state := UIState.view_goal
    selected_index := 0
    goal_to_delete := none
    status_message := none
    is_error := false }

/-- The delete-confirmation prompt for the single goal `"g"`. -/
def stDel : AppState :=
  { goals := [("g", rec0)]
    current_goal := none
    current_state := UIState.delete_confirm
    selected_index := 0
    goal_to_delete := some "g"
    status_message := none
    is_error := false }

/-- A goal name containing the ESC character, as a hand-edited file can
hold. -/
def escName : String := "a\x1bb"

/-- The create-goal prompt with a registry (loaded from a file) that
already contains `escName`. -/
def stEsc : AppState :=
  { goals := [(escName, rec0)]
    current_goal := none
    current_state := UIState.create_goal
    selected_index := 0
    goal_to_delete := none
    status_message := none
    is_error := false }

/-- A persisted file whose single goal record has a `counter` but no
`history` field. -/
def fileNoHist : FileState :=
  FileState.content (Json.jobj [("goals",
    Json.jobj [("g", Json.jobj [("counter", Json.jint 5)])])])

/-! ## Theorems -/

/-- Claim C2 (corrected), counterexample: a persisted file containing the
valid JSON document `[]` makes `load_data` raise an uncaught
`AttributeError` (`data.get` on a list), so loading terminates the process,
contrary to the claim that loading never terminates the process and treats
any non-valid structured data as empty. -/
theorem load_list_raises :
    load_data (FileState.content (Json.jarr [])) = .error .attributeError := rfl

/-- Claim C2 (amended): `load_data` returns the empty mapping when the file
is missing and when its content is rejected by the JSON parser; when the
content parses to a JSON object it returns that object's `goals` member
(defaulting to empty); the only other possibility is an uncaught
`AttributeError`, raised exactly when the content parses to a non-object
JSON value. -/
theorem load_data_behavior :
    load_data FileState.missing = .ok (Json.jobj []) ∧
    load_data FileState.unparsable = .ok (Json.jobj []) ∧
    (∀ fields, load_data (FileState.content (Json.jobj fields)) =
      .ok ((jsonLookup "goals" fields).getD (Json.jobj []))) ∧
    (∀ fs, (∃ j, load_data fs = .ok j) ∨ load_data fs = .error .attributeError) := by
  refine ⟨rfl, rfl, fun fields => rfl, fun fs => ?_⟩
  cases fs with
  | missing => exact Or.inl ⟨_, rfl⟩
  | unparsable => exact Or.inl ⟨_, rfl⟩
  | content j => cases j <;> first | exact Or.inl ⟨_, rfl⟩ | exact Or.inr rfl

/-- Claim C4 (confirmed): in the goal view, pressing undo (`u`/`U`) while
the goal's history is the empty list leaves the whole application state
unchanged — in particular counter and history — and raises nothing. -/
theorem undo_empty_noop (env : Env) (st : AppState) (g : String) (r : GoalRec)
    (hk : env.key = 117 ∨ env.key = 85)
    (hg : st.current_goal = some g) (hr : findRec g st.goals = some r)
    (hh : r.history = some []) :
    handleGoalInput env st = .ok st := by
  rcases hk with hk | hk <;> simp [handleGoalInput, hk, hg, hr, hh]

/-- Witness for C4 at the concrete state `stView` with the undo key. -/
theorem undo_empty_noop_witness :
    handleGoalInput (envK 117) stView = .ok stView :=
  undo_empty_noop (envK 117) stView "g" rec0 (Or.inl rfl) rfl rfl rfl

/-- Claim C10 (confirmed): in the `delete_confirm` state, any input whose
key is not `y`/`Y` — including the −1 timeout sentinel — deletes nothing,
leaves the registry and selection index unchanged, and unconditionally
transitions back to `menu`. -/
theorem delete_confirm_non_yes (env : Env) (st : AppState)
    (hk : ¬(env.key = 121 ∨ env.key = 89)) :
    ∃ st2, handleDeleteConfirm env st = .ok st2 ∧ st2.goals = st.goals ∧
      st2.current_state = UIState.menu ∧ st2.selected_index = st.selected_index := by
  simp only [handleDeleteConfirm, if_neg hk]
  split
  · exact ⟨_, rfl, rfl, rfl, rfl⟩
  · exact ⟨_, rfl, rfl, rfl, rfl⟩

/-- Witness for C10: the timeout sentinel (−1) in the delete prompt deletes
nothing and bounces back to the menu. -/
theorem delete_confirm_non_yes_witness :
    ∃ st2, handleDeleteConfirm (envK (-1)) stDel = .ok st2 ∧ st2.goals = stDel.goals ∧
      st2.current_state = UIState.menu ∧ st2.selected_index = stDel.selected_index :=
  delete_confirm_non_yes (envK (-1)) stDel (by decide)

/-- Claim C3 (corrected), counterexample: with the disk write failing, the
increment handler neither returns a successor state nor records a status
message — it propagates `OSError`, which no caller catches, terminating the
process; the claim said the failure is surfaced as a status message, the
process continues, and the next mutation retries. -/
theorem save_failure_example :
    handleGoalInput envBadDisk stView = .error .osError ∧
    (handleGoalInput envBadDisk stView).isOk = false := by
  constructor <;> rfl

/-- Claim C3 (amended): if the disk write of `save_data` fails during a
mutation (here: increment in the goal view), the `OSError` propagates out
of the handler uncaught — no status message is shown, the process
terminates, and there is no retry. -/
theorem save_failure_uncaught (env : Env) (st : AppState) (g : String) (c : Int) (h : List Int)
    (hd : env.diskOk = false) (hk : env.key = 105) (hv : viewing g c h st) :
    handleGoalInput env st = .error .osError := by
  obtain ⟨hg, r, hr, hc, hh⟩ := hv
  simp [handleGoalInput, hk, hg, hr, hh, hc, saveData, hd]

/-- Witness for the amended C3 at the concrete state `stView`. -/
theorem save_failure_uncaught_witness :
    handleGoalInput envBadDisk stView = .error .osError :=
  save_failure_uncaught envBadDisk stView "g" 0 [] rfl rfl ⟨rfl, rec0, rfl, rfl, rfl⟩

/-- Claim C9 (corrected), counterexample: a file whose goal record has no
`history` field loads fine (`load_data` validates nothing and the record
decodes with `history = none`), but pressing increment on that goal raises
an uncaught `KeyError` (`data['history']`), instead of behaving as if the
history were empty (which would succeed and set the counter to 6). -/
theorem missing_history_example :
    load_data fileNoHist = .ok (Json.jobj [("g", Json.jobj [("counter", Json.jint 5)])]) ∧
    decodeGoals (Json.jobj [("g", Json.jobj [("counter", Json.jint 5)])]) =
      some [("g", recNoHist)] ∧
    handleGoalInput (envK 105) stNoHist = .error .keyError := by
  refine ⟨rfl, ?_, rfl⟩
  rfl

/-- Claim C9 (amended): loading tolerates records with missing optional
fields in the sense that `load_data` stores them unvalidated, but a record
with no `history` field is not treated as empty history: both increment and
undo on such a goal raise an uncaught `KeyError`. -/
theorem missing_history_raises (env : Env) (st : AppState) (g : String) (r : GoalRec)
    (hg : st.current_goal = some g) (hr : findRec g st.goals = some r)
    (hh : r.history = none) (hk : env.key = 105 ∨ env.key = 117) :
    handleGoalInput env st = .error .keyError := by
  rcases hk with hk | hk <;> simp [handleGoalInput, hk, hg, hr, hh]

/-- Witness for the amended C9 at the concrete state `stNoHist`. -/
theorem missing_history_raises_witness :
    handleGoalInput (envK 117) stNoHist = .error .keyError :=
  missing_history_raises (envK 117) stNoHist "g" recNoHist rfl rfl rfl (Or.inr rfl)

/-- Claim C5 (corrected), counterexample: the registry (as loadable from a
hand-edited file) contains the goal name `"a\x1bb"`; submitting exactly
that text matches the existing name after stripping, yet the handler takes
the cancellation branch (the ESC check precedes the duplicate check):
the UI returns to `menu` instead of staying in `create_goal`, and the
status is the cancellation message, not a duplicate-name error. -/
theorem esc_duplicate_cancels :
    pyStrip (envText escName).text = escName ∧
    (findRec escName stEsc.goals).isSome = true ∧
    handleCreateGoal (envText escName) stEsc =
      .ok (setStatus "Goal creation cancelled" false
        { stEsc with current_state := UIState.menu }) ∧
    UIState.menu ≠ UIState.create_goal := by
  refine ⟨rfl, rfl, rfl, by decide⟩

/-- Claim C5 (amended): if the submitted text strips to a non-empty name
that contains no ESC character and exactly matches an existing goal's
name, the create handler leaves the registry unchanged, keeps the UI state
unchanged (so it stays in `create_goal`), and signals the duplicate-name
error message. -/
theorem duplicate_name_stays (env : Env) (st : AppState)
    (hesc : pyInStr '\x1b' (pyStrip env.text) = false)
    (hne : pyStrip env.text ≠ "")
    (hdup : (findRec (pyStrip env.text) st.goals).isSome = true) :
    ∃ st2, handleCreateGoal env st = .ok st2 ∧ st2.goals = st.goals ∧
      st2.current_state = st.current_state ∧
      st2.status_message = some ("Goal '" ++ pyStrip env.text ++ "' already exists!") ∧
      st2.is_error = true := by
  simp only [handleCreateGoal, hesc, hdup]
  rw [if_neg]
  · exact ⟨_, rfl, rfl, rfl, rfl, rfl⟩
  · simp [hne]

/-- Witness for the amended C5: submitting `" g "` while `"g"` exists. -/
theorem duplicate_name_stays_witness :
    ∃ st2, handleCreateGoal (envText " g ") stView = .ok st2 ∧ st2.goals = stView.goals ∧
      st2.current_state = stView.current_state ∧
      st2.status_message = some ("Goal '" ++ pyStrip (envText " g ").text ++ "' already exists!") ∧
      st2.is_error = true :=
  duplicate_name_stays (envText " g ") stView (by decide) (by decide) (by decide)

/-- Decoding a serialized list of integers gives back the list. -/
theorem mapOpt_asInt_map_jint (h : List Int) :
    mapOpt asInt (h.map Json.jint) = some h := by
  induction h with
  | nil => rfl
  | cons a t ih => simp [mapOpt, asInt, ih]

/-- Decoding a serialized full goal record gives back the record. -/
theorem decodeRec_encodeRec (r : GoalRec) (hr : fullRec r) :
    decodeRec (encodeRec r) = some r := by
  obtain ⟨h1, h2, h3, h4⟩ := hr
  cases r with
  | mk cnt hist ca lu =>
    rcases cnt with _ | c
    · simp at h1
    rcases hist with _ | h
    · simp at h2
    rcases ca with _ | s
    · simp at h3
    rcases lu with _ | u
    · simp at h4
    simp [encodeRec, decodeRec, jsonLookup, asInt, asStr, asIntList, mapOpt_asInt_map_jint]

/-- Decoding the serialized registry gives back the registry. -/
theorem decodeGoals_encodeGoals (gs : List (String × GoalRec))
    (hwf : ∀ p ∈ gs, fullRec p.2) :
    decodeGoals (encodeGoals gs) = some gs := by
  induction gs with
  | nil => rfl
  | cons p t ih =>
    have hp := hwf p (by simp)
    have ht : decodeGoals (encodeGoals t) = some t := ih (fun q hq => hwf q (by simp [hq]))
    simp only [encodeGoals, List.map_cons, decodeGoals, mapOpt] at ht ⊢
    rw [decodeRec_encodeRec p.2 hp]
    simp [ht]

/-- Claim C8 (confirmed): saving a valid in-memory registry (unique names,
records with counter, history and both timestamps) and loading the written
file reproduces an equal registry: `load_data` returns exactly the
serialized registry, and reading it back field by field yields the original
names, counters, histories and timestamps. -/
theorem save_load_roundtrip (gs : List (String × GoalRec))
    (hnd : (gs.map Prod.fst).Nodup) (hwf : ∀ p ∈ gs, fullRec p.2) :
    load_data (save_file gs) = .ok (encodeGoals gs) ∧
    decodeGoals (encodeGoals gs) = some gs :=
  ⟨rfl, decodeGoals_encodeGoals gs hwf⟩

/-- Witness for C8 on a one-goal registry. -/
theorem save_load_roundtrip_witness :
    load_data (save_file [("g", rec0)]) = .ok (encodeGoals [("g", rec0)]) ∧
    decodeGoals (encodeGoals [("g", rec0)]) = some [("g", rec0)] :=
  save_load_roundtrip [("g", rec0)] (by decide) (by decide)

/-- Writing a record back at an existing key finds that record. -/
theorem findRec_setRec (g : String) (d : GoalRec) (gs : List (String × GoalRec)) :
    findRec g (setRec g d gs) = some d := by
  induction gs with
  | nil => simp [setRec, findRec]
  | cons p t ih =>
    by_cases hp : p.1 = g
    · simp [setRec, findRec, hp]
    · simp [setRec, findRec, hp, ih]

/-- One increment keypress in the goal view: pushes the counter onto the
history and adds 1. -/
theorem inc_step (env : Env) (st : AppState) (g : String) (c : Int) (h : List Int)
    (hd : env.diskOk = true) (hv : viewing g c h st) :
    ∃ st2, handleGoalInput { env with key := 105 } st = .ok st2 ∧
      viewing g (c + 1) (h ++ [c]) st2 := by
  obtain ⟨hg, r, hr, hc, hh⟩ := hv
  refine ⟨setStatus ("Counter increased to " ++ toString (c + 1)) false { st with goals := setRec g { r with history := some (h ++ [c]), counter := some (c + 1), last_updated := some env.now } st.goals }, ?_, ?_⟩
  · simp [handleGoalInput, hg, hr, hh, hc, saveData, hd]
  · exact ⟨by simp [setStatus, hg], { r with history := some (h ++ [c]), counter := some (c + 1), last_updated := some env.now }, by simp [setStatus, findRec_setRec], rfl, rfl⟩

/-- One undo keypress in the goal view: pops the last history entry into
the counter. -/
theorem undo_step (env : Env) (st : AppState) (g : String) (c : Int) (h : List Int) (x : Int)
    (hd : env.diskOk = true) (hv : viewing g c (h ++ [x]) st) :
    ∃ st2, handleGoalInput { env with key := 117 } st = .ok st2 ∧
      viewing g x h st2 := by
  obtain ⟨hg, r, hr, hc, hh⟩ := hv
  refine ⟨setStatus ("Counter reset to " ++ toString x) false { st with goals := setRec g { r with counter := some x, history := some h, last_updated := some env.now } st.goals }, ?_, ?_⟩
  · simp [handleGoalInput, hg, hr, hh, hc, saveData, hd, List.getLast?_concat,
      List.dropLast_concat]
  · exact ⟨by simp [setStatus, hg], { r with counter := some x, history := some h, last_updated := some env.now }, by simp [setStatus, findRec_setRec], rfl, rfl⟩

/-- Running `n` increment keypresses from a viewed goal. -/
theorem runGoalKeys_inc (env : Env) (n : Nat) :
    ∀ (st : AppState) (g : String) (c : Int) (h : List Int),
    env.diskOk = true → viewing g c h st →
    ∃ st2, runGoalKeys env (List.replicate n 105) st = .ok st2 ∧
      viewing g (c + n) (h ++ pushSeq c n) st2 := by
  induction n with
  | zero =>
    intro st g c h hd hv
    exact ⟨st, rfl, by simpa [pushSeq] using hv⟩
  | succ n ih =>
    intro st g c h hd hv
    obtain ⟨st1, hs1, hv1⟩ := inc_step env st g c h hd hv
    obtain ⟨st2, hs2, hv2⟩ := ih st1 g (c + 1) (h ++ [c]) hd hv1
    refine ⟨st2, ?_, ?_⟩
    · simp [List.replicate_succ, runGoalKeys, hs1, hs2]
    · have hc2 : (c + 1) + (n : Int) = c + ((n : Nat) + 1 : Nat) := by push_cast; ring
      have hh2 : (h ++ [c]) ++ pushSeq (c + 1) n = h ++ pushSeq c (n + 1) := by
        simp [pushSeq]
      rwa [hc2, hh2] at hv2

/-- The pushed-values sequence grows at its tail. -/
theorem pushSeq_succ_snoc (c : Int) (n : Nat) :
    pushSeq c (n + 1) = pushSeq c n ++ [c + n] := by
  induction n generalizing c with
  | zero => simp [pushSeq]
  | succ n ih =>
    calc pushSeq c (n + 2) = c :: pushSeq (c + 1) (n + 1) := rfl
    _ = c :: (pushSeq (c + 1) n ++ [(c + 1) + n]) := by rw [ih]
    _ = (c :: pushSeq (c + 1) n) ++ [(c + 1) + n] := rfl
    _ = pushSeq c (n + 1) ++ [c + ((n : Nat) + 1 : Nat)] := by
      rw [show pushSeq c (n + 1) = c :: pushSeq (c + 1) n from rfl]
      congr 1
      simp
      push_cast
      ring

/-- Running `k ≤ m` undo keypresses after the history holds `m` pushed
values. -/
theorem runGoalKeys_undo (env : Env) (k : Nat) :
    ∀ (m : Nat) (st : AppState) (g : String) (c : Int) (h : List Int),
    k ≤ m → env.diskOk = true → viewing g (c + m) (h ++ pushSeq c m) st →
    ∃ st2, runGoalKeys env (List.replicate k 117) st = .ok st2 ∧
      viewing g (c + (m - k : Nat)) (h ++ pushSeq c (m - k)) st2 := by
  induction k with
  | zero =>
    intro m st g c h hkm hd hv
    exact ⟨st, rfl, by simpa using hv⟩
  | succ k ih =>
    intro m st g c h hkm hd hv
    obtain ⟨m2, rfl⟩ : ∃ m2, m = m2 + 1 := ⟨m - 1, by omega⟩
    rw [pushSeq_succ_snoc, ← List.append_assoc] at hv
    obtain ⟨st1, hs1, hv1⟩ := undo_step env st g (c + (m2 + 1 : Nat)) (h ++ pushSeq c m2) (c + m2) hd hv
    obtain ⟨st2, hs2, hv2⟩ := ih m2 st1 g c h (by omega) hd hv1
    refine ⟨st2, ?_, ?_⟩
    · simp [List.replicate_succ, runGoalKeys, hs1, hs2]
    · simpa [Nat.succ_sub_succ] using hv2

/-- Key runs compose: running `a ++ b` first runs `a`, then `b`. -/
theorem runGoalKeys_append (env : Env) (a b : List Int) :
    ∀ (st st1 : AppState), runGoalKeys env a st = .ok st1 →
    runGoalKeys env (a ++ b) st = runGoalKeys env b st1 := by
  induction a with
  | nil =>
    intro st st1 h
    simp only [runGoalKeys] at h
    cases h
    rfl
  | cons x t ih =>
    intro st st1 h
    simp only [runGoalKeys, List.cons_append] at h ⊢
    cases hx : handleGoalInput { env with key := x } st with
    | ok st2 =>
      rw [hx] at h
      simp only [hx]
      exact ih st2 st1 h
    | error e =>
      rw [hx] at h
      exact absurd h (by simp)

/-- A prefix of the increment-then-undo key sequence. -/
theorem incUndo_take (n k j : Nat) (hk : k ≤ n) (hj : j ≤ n + k) :
    (incUndoKeys n k).take j =
      List.replicate (min j n) 105 ++ List.replicate (j - n) 117 := by
  unfold incUndoKeys
  rw [List.take_append_eq_append_take, List.take_replicate, List.take_replicate,
    List.length_replicate]
  have hmin : min (j - n) k = j - n := by omega
  rw [hmin]

/-- Claim C1 (confirmed): starting from any viewed goal with non-negative
counter `c` and history `h`, a sequence of `n` increment keypresses
followed by `k ≤ n` undo keypresses succeeds and leaves the goal's counter
at `c + (n − k)` with history `h` extended by the first `n − k` pushed
values; after every prefix of the sequence the counter is defined and
non-negative; and each single increment pushes the current counter onto
the history then adds 1, while each single undo pops the last history
entry into the counter. -/
theorem inc_undo_counter (env : Env) (st : AppState) (g : String) (c : Int) (h : List Int)
    (n k : Nat) (hd : env.diskOk = true) (hv : viewing g c h st) (hc : 0 ≤ c) (hkn : k ≤ n) :
    (∃ st2, runGoalKeys env (incUndoKeys n k) st = .ok st2 ∧
      counterOf g st2 = some (c + (n - k : Nat)) ∧
      historyOf g st2 = some (h ++ pushSeq c (n - k))) ∧
    (∀ j, j ≤ n + k → ∃ stj cj, runGoalKeys env ((incUndoKeys n k).take j) st = .ok stj ∧
      counterOf g stj = some cj ∧ 0 ≤ cj) ∧
    (∀ st2 c2 h2, viewing g c2 h2 st2 →
      ∃ st3, handleGoalInput { env with key := 105 } st2 = .ok st3 ∧
        viewing g (c2 + 1) (h2 ++ [c2]) st3) ∧
    (∀ st2 c2 h2 x, viewing g c2 (h2 ++ [x]) st2 →
      ∃ st3, handleGoalInput { env with key := 117 } st2 = .ok st3 ∧ viewing g x h2 st3) := by
  refine ⟨?_, ?_, fun st2 c2 h2 hv2 => inc_step env st2 g c2 h2 hd hv2,
    fun st2 c2 h2 x hv2 => undo_step env st2 g c2 h2 x hd hv2⟩
  · obtain ⟨st1, hs1, hv1⟩ := runGoalKeys_inc env n st g c h hd hv
    obtain ⟨st2, hs2, hv2⟩ := runGoalKeys_undo env k n st1 g c h hkn hd hv1
    obtain ⟨hg2, r2, hr2, hc2, hh2⟩ := hv2
    refine ⟨st2, ?_, by simp [counterOf, hr2, hc2], by simp [historyOf, hr2, hh2]⟩
    rw [incUndoKeys, runGoalKeys_append env _ _ st st1 hs1]
    exact hs2
  · intro j hj
    obtain ⟨st1, hs1, hv1⟩ := runGoalKeys_inc env (min j n) st g c h hd hv
    obtain ⟨st2, hs2, hv2⟩ := runGoalKeys_undo env (j - n) (min j n) st1 g c h (by omega) hd hv1
    obtain ⟨hg2, r2, hr2, hc2, hh2⟩ := hv2
    refine ⟨st2, c + ((min j n - (j - n) : Nat) : Int), ?_, ?_, by omega⟩
    · rw [incUndo_take n k j hkn hj, runGoalKeys_append env _ _ st st1 hs1]
      exact hs2
    · simp [counterOf, hr2, hc2]

/-- Witness for C1: two increments then one undo on a fresh goal leave the
counter at 1 with history `[0]`. -/
theorem inc_undo_counter_witness :
    ∃ st2, runGoalKeys (envK 0) (incUndoKeys 2 1) stView = .ok st2 ∧
      counterOf "g" st2 = some (0 + ((2 - 1 : Nat) : Int)) ∧
      historyOf "g" st2 = some ([] ++ pushSeq 0 (2 - 1)) :=
  (inc_undo_counter (envK 0) stView "g" 0 [] 2 1 rfl ⟨rfl, rec0, rfl, rfl, rfl⟩
    (by decide) (by decide)).1

/-- A successful non-negative Python list index is within range. -/
theorem pyIndex_ok_lt {α : Type} (l : List α) (i : Int) (a : α)
    (h : pyIndex l i = .ok a) (hi : 0 ≤ i) : i < (l.length : Int) := by
  simp only [pyIndex] at h
  split at h
  · rename_i hcond
    omega
  split at h
  · rename_i hcond
    omega
  · exact absurd h (by simp)

/-- Python list indexing succeeds on every index in `[-len, len)`. -/
theorem pyIndex_total {α : Type} (l : List α) (i : Int)
    (h1 : -(l.length : Int) ≤ i) (h2 : i < (l.length : Int)) :
    ∃ a, pyIndex l i = .ok a := by
  simp only [pyIndex]
  split
  · exact ⟨_, rfl⟩
  split
  · exact ⟨_, rfl⟩
  · rename_i hc1 hc2
    exfalso
    omega

/-- A found record is a member of the registry. -/
theorem findRec_mem (g : String) : ∀ (gs : List (String × GoalRec)) (r : GoalRec),
    findRec g gs = some r → (g, r) ∈ gs := by
  intro gs
  induction gs with
  | nil => intro r h; simp [findRec] at h
  | cons p t ih =>
    intro r h
    simp only [findRec] at h
    split at h
    · rename_i hp
      cases h
      cases p with
      | mk a b =>
        simp only at hp
        subst hp
        exact List.mem_cons_self _ _
    · exact List.mem_cons_of_mem p (ih r h)

/-- Overwriting an existing key preserves the registry's size. -/
theorem setRec_length (g : String) : ∀ (gs : List (String × GoalRec)) (r : GoalRec),
    findRec g gs = some r → ∀ (d : GoalRec), (setRec g d gs).length = gs.length := by
  intro gs
  induction gs with
  | nil => intro r h; simp [findRec] at h
  | cons p t ih =>
    intro r h d
    simp only [findRec] at h
    split at h <;> rename_i hp
    · simp [setRec, hp]
    · simp [setRec, hp, ih _ h]

/-- The handler `handle_menu_input` preserves the selection-index invariant. -/
theorem menu_invIdx (env : Env) (st st2 : AppState) (hinv : invIdx st)
    (hs : handleMenuInput env st = .ok st2) : invIdx st2 := by
  obtain ⟨ha, hb⟩ := hinv
  simp only [handleMenuInput] at hs
  split at hs
  · cases hs; exact ⟨ha, hb⟩
  split at hs
  · -- KEY_UP
    split at hs
    · rename_i name heq
      cases hs
      have hlt := pyIndex_ok_lt _ _ _ heq (by omega)
      simp only [List.length_map] at hlt
      simp only [invIdx, setStatus]
      omega
    · exact absurd hs (by simp)
  split at hs
  · -- KEY_DOWN
    split at hs
    · rename_i hgoals
      cases hs
      simp only [invIdx, hgoals]
      simp
      omega
    · split at hs
      · rename_i name heq
        have hgoals : ¬(st.goals = []) := by assumption
        cases hs
        have hlen : 0 < st.goals.length := List.length_pos.mpr hgoals
        simp only [invIdx, setStatus]
        omega
      · exact absurd hs (by simp)
  split at hs
  · -- Enter
    split at hs
    · rename_i name heq
      cases hs
      simp only [invIdx, setStatus]
      omega
    · exact absurd hs (by simp)
  split at hs
  · -- create key
    cases hs
    simp only [invIdx, setStatus]
    omega
  split at hs
  · -- delete key
    split at hs
    · rename_i name heq
      cases hs
      exact ⟨ha, hb⟩
    · exact absurd hs (by simp)
  split at hs
  · -- quit key
    split at hs <;> exact absurd hs (by simp)
  split at hs
  · -- easter egg
    cases hs
    simp only [invIdx, setStatus]
    omega
  · cases hs
    exact ⟨ha, hb⟩

/-- The handler `handle_goal_input` preserves the selection-index invariant. -/
theorem goal_invIdx (env : Env) (st st2 : AppState) (hinv : invIdx st)
    (hs : handleGoalInput env st = .ok st2) : invIdx st2 := by
  obtain ⟨ha, hb⟩ := hinv
  simp only [handleGoalInput] at hs
  split at hs
  · cases hs; exact ⟨ha, hb⟩
  split at hs
  · exact absurd hs (by simp)
  rename_i g hg
  split at hs
  · exact absurd hs (by simp)
  rename_i data hdata
  split at hs
  · -- increment
    split at hs
    · exact absurd hs (by simp)
    rename_i h hh
    split at hs
    · exact absurd hs (by simp)
    rename_i c hc
    split at hs
    · rename_i u hu
      cases hs
      have hlen := setRec_length g st.goals data hdata
      simp only [invIdx, setStatus]
      rw [hlen]
      omega
    · exact absurd hs (by simp)
  split at hs
  · -- undo
    split at hs
    · exact absurd hs (by simp)
    rename_i h hh
    split at hs
    · cases hs; exact ⟨ha, hb⟩
    rename_i x hx
    split at hs
    · rename_i u hu
      cases hs
      have hlen := setRec_length g st.goals data hdata
      simp only [invIdx, setStatus]
      rw [hlen]
      omega
    · exact absurd hs (by simp)
  split at hs
  · cases hs
    simp only [invIdx, setStatus]
    omega
  split at hs
  · split at hs <;> exact absurd hs (by simp)
  split at hs
  · cases hs
    simp only [invIdx, setStatus]
    omega
  · cases hs
    exact ⟨ha, hb⟩

/-- The handler `handle_create_goal` preserves the selection-index invariant. -/
theorem create_invIdx (env : Env) (st st2 : AppState) (hinv : invIdx st)
    (hs : handleCreateGoal env st = .ok st2) : invIdx st2 := by
  obtain ⟨ha, hb⟩ := hinv
  simp only [handleCreateGoal] at hs
  split at hs
  · cases hs
    simp only [invIdx, setStatus]
    omega
  split at hs
  · cases hs
    simp only [invIdx, setStatus]
    omega
  · split at hs
    · rename_i u hu
      cases hs
      simp only [invIdx, setStatus]
      simp
      omega
    · exact absurd hs (by simp)

/-- The handler `handle_delete_confirm` preserves the selection-index invariant. -/
theorem delete_invIdx (env : Env) (st st2 : AppState) (hinv : invIdx st)
    (hs : handleDeleteConfirm env st = .ok st2) : invIdx st2 := by
  obtain ⟨ha, hb⟩ := hinv
  simp only [handleDeleteConfirm] at hs
  split at hs
  · split at hs
    · exact absurd hs (by simp)
    rename_i g hg
    split at hs
    · split at hs
      · rename_i u hu
        cases hs
        simp only [invIdx, setStatus]
        omega
      · exact absurd hs (by simp)
    · exact absurd hs (by simp)
  split at hs
  · cases hs
    simp only [invIdx, setStatus]
    omega
  · cases hs
    exact ⟨ha, hb⟩

/-- A computation observed to succeed returns some state. -/
theorem isOk_exists {α : Type} (e : Except PyExc α) (h : e.isOk = true) :
    ∃ x, e = .ok x := by
  cases e with
  | ok x => exact ⟨x, rfl⟩
  | error ex => simp [Except.isOk, Except.toBool] at h

/-- Claim C6 (corrected), counterexample: starting from the initial state
of a missing file, the trace create "A" → menu → delete "A" (confirmed) →
key-down (on the now-empty list) → create "B" reaches a state whose goal
collection is non-empty while `selected_index = −1`: down-navigation on an
empty collection stores −1 instead of clamping to 0, and the value
persists when a goal is created, violating
`0 ≤ selected_index < count(goals)` for non-empty collections. -/
theorem neg_selected_index_reachable :
    ∃ st2, runSteps [envText "A", envK 109, envK 100, envK 121, envK 258, envK 99, envText "B"]
      (initialState []) = .ok st2 ∧ st2.goals ≠ [] ∧ st2.selected_index = -1 :=
  ⟨_, rfl, by decide, rfl⟩

/-- Claim C6 (amended): the invariant each handler actually preserves is
`−1 ≤ selected_index < max 1 count(goals)`: within it, up/down navigation
clamps without wrapping and deletion clamps to `max(0, count−1)` (0 when
the collection empties), but down-navigation on an empty collection yields
−1 rather than 0 and that value can persist into a non-empty collection,
so `0 ≤ selected_index` is not restored until the next navigation. -/
theorem selected_index_invariant (env : Env) (st st2 : AppState)
    (hinv : invIdx st) (hs : step env st = .ok st2) : invIdx st2 := by
  cases hcs : st.current_state <;> simp only [step, hcs] at hs
  · exact menu_invIdx env st st2 hinv hs
  · exact goal_invIdx env st st2 hinv hs
  · exact create_invIdx env st st2 hinv hs
  · exact delete_invIdx env st st2 hinv hs

/-- Witness for the amended C6: a concrete step (timeout in the delete
prompt) from an invariant state lands in an invariant state. -/
theorem selected_index_invariant_witness :
    invIdx { stDel with current_state := UIState.menu } := by
  have hs : step (envK (-1)) stDel = .ok { stDel with current_state := UIState.menu } := rfl
  exact selected_index_invariant (envK (-1)) stDel _ (by decide) hs

/-- Claim C7 (corrected), counterexample: from the initial state of a
missing file, create "A", return to the menu, delete "A" (confirmed), then
press the up arrow in the menu: the handler evaluates
`list(self.goals.keys())[0]` on an empty list and the uncaught `IndexError`
terminates the process, although no quit was requested. -/
theorem menu_up_empty_crashes :
    runSteps [envText "A", envK 109, envK 100, envK 121, envK 259] (initialState []) =
      .error .indexError := rfl

/-- Claim C7 (amended): for a well-formed state satisfying the selection
invariant, with the disk write succeeding, handling any input event either
succeeds or raises `KeyboardInterrupt` for an explicit quit key — except
for the up arrow in the menu with an empty goal collection, which raises
an uncaught `IndexError` (and except for failing disk writes, covered by
C3). -/
theorem step_no_crash (env : Env) (st : AppState)
    (hwf : wfState st) (hidx : invIdx st) (hd : env.diskOk = true)
    (hup : ¬(st.current_state = UIState.menu ∧ env.key = KEY_UP ∧ st.goals = [])) :
    (∃ st2, step env st = .ok st2) ∨
    (step env st = .error .keyboardInterrupt ∧ (env.key = 113 ∨ env.key = 81)) := by
  obtain ⟨hfull, hview, hdel⟩ := hwf
  obtain ⟨ha, hb⟩ := hidx
  cases hcs : st.current_state
  case menu =>
    have hstep : step env st = handleMenuInput env st := by simp [step, hcs]
    rw [hstep]
    by_cases h1 : env.key = -1
    · exact Or.inl ⟨st, by simp [handleMenuInput, h1]⟩
    by_cases h2 : env.key = KEY_UP
    · have hg : ¬(st.goals = []) := fun hgo => hup ⟨hcs, h2, hgo⟩
      have hlen : 0 < st.goals.length := List.length_pos.mpr hg
      obtain ⟨a, hpa⟩ := pyIndex_total (st.goals.map Prod.fst) (max 0 (st.selected_index - 1))
        (by simp only [List.length_map]; omega) (by simp only [List.length_map]; omega)
      exact Or.inl (isOk_exists _ (by simp [handleMenuInput, h1, h2, KEY_UP, KEY_DOWN, hpa,
        Except.isOk, Except.toBool]))
    by_cases h3 : env.key = KEY_DOWN
    · by_cases hge : st.goals = []
      · exact Or.inl (isOk_exists _ (by simp [handleMenuInput, h1, h2, h3, KEY_UP, KEY_DOWN,
          hge, Except.isOk, Except.toBool]))
      · have hlen : 0 < st.goals.length := List.length_pos.mpr hge
        obtain ⟨a, hpa⟩ := pyIndex_total (st.goals.map Prod.fst)
          (min ((st.goals.length : Int) - 1) (st.selected_index + 1))
          (by simp only [List.length_map]; omega) (by simp only [List.length_map]; omega)
        exact Or.inl (isOk_exists _ (by simp [handleMenuInput, h1, h2, h3, KEY_UP, KEY_DOWN,
          hge, hpa, Except.isOk, Except.toBool]))
    have h2n : ¬(env.key = 259) := h2
    have h3n : ¬(env.key = 258) := h3
    by_cases h4 : (env.key = 10 ∨ env.key = 13) ∧ st.goals ≠ []
    · have hlen : 0 < st.goals.length := List.length_pos.mpr h4.2
      obtain ⟨a, hpa⟩ := pyIndex_total (st.goals.map Prod.fst) st.selected_index
        (by simp only [List.length_map]; omega) (by simp only [List.length_map]; omega)
      exact Or.inl (isOk_exists _ (by simp [handleMenuInput, h1, h2, h3, h2n, h3n, h4, KEY_UP,
        KEY_DOWN, hpa, Except.isOk, Except.toBool]))
    by_cases h5 : env.key = 99 ∨ env.key = 67
    · exact Or.inl (isOk_exists _ (by simp [handleMenuInput, h1, h2, h3, h2n, h3n, h4, h5,
        KEY_UP, KEY_DOWN, Except.isOk, Except.toBool]))
    by_cases h6 : (env.key = 100 ∨ env.key = 68) ∧ st.goals ≠ []
    · have h9 : ¬(env.key = 10 ∨ env.key = 13) := fun ho => h4 ⟨ho, h6.2⟩
      have hlen : 0 < st.goals.length := List.length_pos.mpr h6.2
      obtain ⟨a, hpa⟩ := pyIndex_total (st.goals.map Prod.fst) st.selected_index
        (by simp only [List.length_map]; omega) (by simp only [List.length_map]; omega)
      exact Or.inl (isOk_exists _ (by simp [handleMenuInput, h1, h2, h3, h2n, h3n, h4, h5, h6,
        h9, KEY_UP, KEY_DOWN, hpa, Except.isOk, Except.toBool]))
    by_cases h7 : env.key = 113 ∨ env.key = 81
    · refine Or.inr ⟨?_, h7⟩
      simp [handleMenuInput, h1, h2, h3, h2n, h3n, h4, h5, h6, h7, KEY_UP, KEY_DOWN, saveData,
        hd]
    by_cases h8 : env.key = 63
    · exact Or.inl (isOk_exists _ (by simp [handleMenuInput, h1, h2, h3, h2n, h3n, h4, h5, h6,
        h7, h8, KEY_UP, KEY_DOWN, Except.isOk, Except.toBool]))
    · exact Or.inl ⟨st, by simp [handleMenuInput, h1, h2, h3, h2n, h3n, h4, h5, h6, h7, h8,
        KEY_UP, KEY_DOWN]⟩
  case view_goal =>
    have hstep : step env st = handleGoalInput env st := by simp [step, hcs]
    rw [hstep]
    by_cases h1 : env.key = -1
    · exact Or.inl ⟨st, by simp [handleGoalInput, h1]⟩
    obtain ⟨g, hg, hfind⟩ := hview hcs
    rcases Option.isSome_iff_exists.mp hfind with ⟨r, hr⟩
    have hmem := findRec_mem g st.goals r hr
    have hfr : fullRec r := hfull (g, r) hmem
    obtain ⟨hfc, hfh, -, -⟩ := hfr
    rcases Option.isSome_iff_exists.mp hfc with ⟨c, hcc⟩
    rcases Option.isSome_iff_exists.mp hfh with ⟨hl, hhh⟩
    by_cases h2 : env.key = 105 ∨ env.key = 73
    · exact Or.inl (isOk_exists _ (by simp [handleGoalInput, h1, h2, hg, hr, hhh, hcc,
        saveData, hd, Except.isOk, Except.toBool]))
    by_cases h3 : env.key = 117 ∨ env.key = 85
    · cases hlast : hl.getLast? with
      | none => exact Or.inl ⟨st, by simp [handleGoalInput, h1, h2, h3, hg, hr, hhh, hlast]⟩
      | some x =>
        exact Or.inl (isOk_exists _ (by simp [handleGoalInput, h1, h2, h3, hg, hr, hhh, hlast,
          saveData, hd, Except.isOk, Except.toBool]))
    by_cases h4 : env.key = 109 ∨ env.key = 77
    · exact Or.inl (isOk_exists _ (by simp [handleGoalInput, h1, h2, h3, h4, hg, hr,
        Except.isOk, Except.toBool]))
    by_cases h5 : env.key = 113 ∨ env.key = 81
    · refine Or.inr ⟨?_, h5⟩
      simp [handleGoalInput, h1, h2, h3, h4, h5, hg, hr, saveData, hd]
    by_cases h6 : env.key = 63
    · exact Or.inl (isOk_exists _ (by simp [handleGoalInput, h1, h2, h3, h4, h5, h6, hg, hr,
        Except.isOk, Except.toBool]))
    · exact Or.inl ⟨st, by simp [handleGoalInput, h1, h2, h3, h4, h5, h6, hg, hr]⟩
  case create_goal =>
    have hstep : step env st = handleCreateGoal env st := by simp [step, hcs]
    rw [hstep]
    by_cases h1 : pyInStr '\x1b' (pyStrip env.text) = true ∨ pyStrip env.text = ""
    · exact Or.inl (isOk_exists _ (by simp [handleCreateGoal, h1, Except.isOk, Except.toBool]))
    by_cases h2 : (findRec (pyStrip env.text) st.goals).isSome = true
    · exact Or.inl (isOk_exists _ (by simp [handleCreateGoal, h1, h2, Except.isOk, Except.toBool]))
    · exact Or.inl (isOk_exists _ (by simp [handleCreateGoal, h1, h2, saveData, hd,
        Except.isOk, Except.toBool]))
  case delete_confirm =>
    have hstep : step env st = handleDeleteConfirm env st := by simp [step, hcs]
    rw [hstep]
    obtain ⟨g, hg, hfind⟩ := hdel hcs
    by_cases h1 : env.key = 121 ∨ env.key = 89
    · exact Or.inl (isOk_exists _ (by simp [handleDeleteConfirm, h1, hg, hfind, saveData, hd,
        Except.isOk, Except.toBool]))
    by_cases h2 : env.key = 110 ∨ env.key = 78
    · exact Or.inl (isOk_exists _ (by simp [handleDeleteConfirm, h1, h2, Except.isOk, Except.toBool]))
    · exact Or.inl (isOk_exists _ (by simp [handleDeleteConfirm, h1, h2, Except.isOk, Except.toBool]))

/-- Witness for the amended C7: the easter-egg key in the goal view is
handled without terminating. -/
theorem step_no_crash_witness :
    (∃ st2, step (envK 63) stView = .ok st2) ∨
    (step (envK 63) stView = .error .keyboardInterrupt ∧
      ((envK 63).key = 113 ∨ (envK 63).key = 81)) :=
  step_no_crash (envK 63) stView
    ⟨by decide, fun _ => ⟨"g", rfl, rfl⟩, fun h => by simp [stDel, stView] at h⟩
    (by decide) rfl (by decide)

end ImpulseCheck
